import Mathlib

set_option maxRecDepth 8000

/-!
Shallow embedding of the mruby bytecode-compiler driver
`src/mrbgems/mruby-bin-mrbc/tools/mrbc/mrbc.c`.

C strings are embedded as `List Char` (without the trailing NUL); reading a
C string at an index is `cix`, which yields the NUL character at or past the
terminator, matching how the source indexes NUL-terminated strings.  The
argument vector is a `List (List Char)`.  Behaviour of the surrounding world
that the driver only observes (whether a path can be opened, whether the
external compiler accepts the program, whether an external dump codec
succeeds) is passed in as an explicit `Env` record of oracles.
-/

/-- Read a NUL-terminated C string at index `k`: the character at `k`, or the
NUL character when `k` is at or past the end of the string. -/
def cix (s : List Char) (k : Nat) : Char := s.getD k '\x00'

/-- `RITEBIN_EXT` (mrbc.c line 14). -/
def RITEBIN_EXT : List Char := ['.', 'm', 'r', 'b']

/-- `C_EXT` (mrbc.c line 15). -/
def C_EXT : List Char := ['.', 'c']

/-- `C_HEAD_EXT` (mrbc.c line 16). -/
def C_HEAD_EXT : List Char := ['.', 'h']

/-- Modelled from the spec: `MRB_DUMP_DEBUG_INFO` from the external dump
interface (`mruby/dump.h` is not part of this repository's sources).  The
spec describes "a bitset of output-format flags (struct-form,
header-emission, octal-encoding, static-storage, debug-info)"; the five
flags are modelled as distinct bits, their concrete values are immaterial
to the driver logic. -/
def MRB_DUMP_DEBUG_INFO : Nat := 1

/-- Modelled from the spec: `MRB_DUMP_STATIC`, see `MRB_DUMP_DEBUG_INFO`. -/
def MRB_DUMP_STATIC : Nat := 2

/-- Modelled from the spec: `MRB_DUMP_STRUCT`, see `MRB_DUMP_DEBUG_INFO`. -/
def MRB_DUMP_STRUCT : Nat := 4

/-- Modelled from the spec: `MRB_DUMP_HEADER`, see `MRB_DUMP_DEBUG_INFO`. -/
def MRB_DUMP_HEADER : Nat := 8

/-- Modelled from the spec: `MRB_DUMP_OCTAL`, see `MRB_DUMP_DEBUG_INFO`. -/
def MRB_DUMP_OCTAL : Nat := 16

/-- Modelled from the spec: the success status of the external dump
interface; failures are nonzero. -/
def MRB_DUMP_OK : Int := 0

/-- Modelled from the spec: a generic dump-codec failure status. -/
def MRB_DUMP_GENERAL_FAILURE : Int := -1

/-- Modelled from the spec: the dump status for an invalid argument (used by
`dump_file` for the static-storage-without-symbol rejection). -/
def MRB_DUMP_INVALID_ARGUMENT : Int := -6

/-- `struct mrbc_args` (mrbc.c lines 18-32).  The C field `check_syntax`
is named `check_only` here for lexical reasons; every other field keeps its
source name.  `outfile`/`initname` are `Option` because the C fields are
possibly-NULL pointers; `line_size` is the `uint8_t` field as a `Nat`. -/
structure MrbcArgs where
  prog : List Char
  outfile : Option (List Char)
  initname : Option (List Char)
  argv : List (List Char)
  argc : Nat
  idx : Nat
  line_size : Nat
  check_only : Bool
  verbose : Bool
  remove_lv : Bool
  no_ext_ops : Bool
  no_optimize : Bool
  flags : Nat
deriving DecidableEq

/-- `static const struct mrbc_args args_zero = { 0 };` (mrbc.c line 95). -/
def args_zero : MrbcArgs :=
  { prog := [], outfile := none, initname := none, argv := [], argc := 0,
    idx := 0, line_size := 0, check_only := false, verbose := false,
    remove_lv := false, no_ext_ops := false, no_optimize := false, flags := 0 }

/-- Result of `parse_args` (mrbc.c lines 92-216): `perr` is the negative
return value (usage error), `pexit` is the `exit(EXIT_SUCCESS)` performed
for `--version` / `--copyright`, and `pok args n` is a normal return of the
index `n` of the first positional argument together with the filled-in
configuration record. -/
inductive ParseResult where
  | perr : ParseResult
  | pexit : ParseResult
  | pok : MrbcArgs → Nat → ParseResult
deriving DecidableEq

/-- The long-option name `version`. -/
def cVersion : List Char := ['v', 'e', 'r', 's', 'i', 'o', 'n']

/-- The long-option name `verbose`. -/
def cVerbose : List Char := ['v', 'e', 'r', 'b', 'o', 's', 'e']

/-- The long-option name `copyright`. -/
def cCopyright : List Char := ['c', 'o', 'p', 'y', 'r', 'i', 'g', 'h', 't']

/-- The long-option name `remove-lv`. -/
def cRemoveLv : List Char := ['r', 'e', 'm', 'o', 'v', 'e', '-', 'l', 'v']

/-- The long-option name `no-ext-ops`. -/
def cNoExtOps : List Char := ['n', 'o', '-', 'e', 'x', 't', '-', 'o', 'p', 's']

/-- The long-option name `no-optimize`. -/
def cNoOptimize : List Char := ['n', 'o', '-', 'o', 'p', 't', 'i', 'm', 'i', 'z', 'e']

/-- The long-option name `line-size`. -/
def cLineSize : List Char := ['l', 'i', 'n', 'e', '-', 's', 'i', 'z', 'e']

/-- Value of a digit string (used by the integer reader). -/
def digitsVal (s : List Char) : Nat :=
  s.foldl (fun acc c => acc * 10 + (c.toNat - 48)) 0

/-- A nonempty all-digit string read as a natural number. -/
def readNatDigits (s : List Char) : Option Nat :=
  if s = [] then none
  else if s.all (fun c => c.isDigit) then some (digitsVal s) else none

/-- Modelled from the spec: `mrb_read_int` from the external mruby library
("parse as integer ... unparsable is a hard error"): an optional sign
followed by a nonempty digit string parses to its value; anything else
fails.  Called as `mrb_read_int(s, NULL, NULL, &v)` in the source. -/
def mrb_read_int (s : List Char) : Option Int :=
  match s with
  | '-' :: t => (readNatDigits t).map (fun n => -(n : Int))
  | '+' :: t => (readNatDigits t).map (fun n => (n : Int))
  | _ => (readNatDigits s).map (fun n => (n : Int))

/-- The option-scanning loop of `parse_args` (mrbc.c lines 103-215).
`i` is the loop index into the original argument vector and `rest` holds
`argv[i..]`; `argv[i+1]` being non-NULL corresponds to `rest`'s tail being
nonempty.  Each branch mirrors one `case` of the `switch` on `argv[i][1]`,
in source order; `default:` and the first non-option argument both return
the current index (`pok`). -/
def parseLoop : MrbcArgs → Nat → List (List Char) → ParseResult
  | args, i, [] => ParseResult.pok args i
  | args, i, hd :: tl =>
    if cix hd 0 = '-' then
      if cix hd 1 = 'o' then
        if args.outfile.isSome then ParseResult.perr
        else
          match tl with
          | b :: tl2 =>
            if cix hd 2 = '\x00' then
              parseLoop { args with outfile := some b } (i + 2) tl2
            else
              parseLoop { args with outfile := some (hd.drop 2) } (i + 1) (b :: tl2)
          | [] => parseLoop { args with outfile := some (hd.drop 2) } (i + 1) []
      else if cix hd 1 = 'S' then
        parseLoop { args with flags := args.flags ||| MRB_DUMP_STRUCT } (i + 1) tl
      else if cix hd 1 = 'B' then
        match tl with
        | b :: tl2 =>
          if cix hd 2 = '\x00' then
            if cix b 0 = '\x00' then ParseResult.perr
            else parseLoop { args with initname := some b } (i + 2) tl2
          else
            if cix (hd.drop 2) 0 = '\x00' then ParseResult.perr
            else parseLoop { args with initname := some (hd.drop 2) } (i + 1) (b :: tl2)
        | [] =>
          if cix (hd.drop 2) 0 = '\x00' then ParseResult.perr
          else parseLoop { args with initname := some (hd.drop 2) } (i + 1) []
      else if cix hd 1 = 'H' then
        parseLoop { args with flags := args.flags ||| MRB_DUMP_HEADER } (i + 1) tl
      else if cix hd 1 = '8' then
        parseLoop { args with flags := args.flags ||| MRB_DUMP_OCTAL } (i + 1) tl
      else if cix hd 1 = 'c' then
        parseLoop { args with check_only := true } (i + 1) tl
      else if cix hd 1 = 'v' then
        parseLoop { args with verbose := true } (i + 1) tl
      else if cix hd 1 = 'g' then
        parseLoop { args with flags := args.flags ||| MRB_DUMP_DEBUG_INFO } (i + 1) tl
      else if cix hd 1 = 's' then
        parseLoop { args with flags := args.flags ||| MRB_DUMP_STATIC } (i + 1) tl
      else if cix hd 1 = 'E' ∨ cix hd 1 = 'e' then
        parseLoop args (i + 1) tl
      else if cix hd 1 = 'h' then ParseResult.perr
      else if cix hd 1 = '-' then
        if cix hd 1 = '\n' then ParseResult.pok args i
        else if hd.drop 2 = cVersion then ParseResult.pexit
        else if hd.drop 2 = cVerbose then
          parseLoop { args with verbose := true } (i + 1) tl
        else if hd.drop 2 = cCopyright then ParseResult.pexit
        else if hd.drop 2 = cRemoveLv then
          parseLoop { args with remove_lv := true } (i + 1) tl
        else if hd.drop 2 = cNoExtOps then
          parseLoop { args with no_ext_ops := true } (i + 1) tl
        else if hd.drop 2 = cNoOptimize then
          parseLoop { args with no_optimize := true } (i + 1) tl
        else if hd.drop 2 = cLineSize then
          match tl with
          | b :: tl2 =>
            if cix hd 2 = '\x00' then
              match mrb_read_int b with
              | some v =>
                if v < 1 ∨ 255 < v then ParseResult.perr
                else parseLoop { args with line_size := v.toNat } (i + 2) tl2
              | none => ParseResult.perr
            else
              match mrb_read_int (hd.drop 2) with
              | some v =>
                if v < 1 ∨ 255 < v then ParseResult.perr
                else parseLoop { args with line_size := v.toNat } (i + 1) (b :: tl2)
              | none => ParseResult.perr
          | [] =>
            match mrb_read_int (hd.drop 2) with
            | some v =>
              if v < 1 ∨ 255 < v then ParseResult.perr
              else parseLoop { args with line_size := v.toNat } (i + 1) []
            | none => ParseResult.perr
        else ParseResult.perr
      else ParseResult.pok args i
    else ParseResult.pok args i

/-- `parse_args` (mrbc.c lines 92-216).  Its first action is
`*args = args_zero` (line 98), so the contents of the caller's struct are
discarded; in particular the `args.line_size = 16` that `main` performs just
before the call (line 335) is overwritten by the zero record.  Then
`argc`, `argv` and `prog = argv[0]` are filled in and the scan starts at
index 1. -/
def parse_args (argv : List (List Char)) : ParseResult :=
  parseLoop
    { args_zero with argc := argv.length, argv := argv, prog := argv.getD 0 [] }
    1 (argv.drop 1)

/-- Index of the last occurrence of `c` in `l` (the `strrchr` of the source,
as an index instead of a pointer). -/
def strrchrIdx : List Char → Char → Option Nat
  | [], _ => none
  | a :: t, c =>
    match strrchrIdx t c with
    | some k => some (k + 1)
    | none => if a = c then some 0 else none

/-- `get_outfilename` (mrbc.c lines 64-90).  When the extension is nonempty
and the input contains a '.', `ilen` is cut to the last-dot position and the
two `strncpy` calls produce the stem followed by the extension; otherwise
`p` stays NULL and the copy reproduces `infile` unchanged. -/
def get_outfilename (infile : List Char) (ext : List Char) : List Char :=
  if ext = [] then infile
  else
    match strrchrIdx infile '.' with
    | none => infile
    | some p => infile.take p ++ ext

/-- Oracles for the world the driver observes: whether a path opens for
reading (`fopen(path, "rb")`) or writing (`fopen(path, "wb")`), whether the
external compiler produces a non-undef result for the whole load, and
whether an invoked external dump codec succeeds. -/
structure Env where
  canOpenRead : List Char → Bool
  canOpenWrite : List Char → Bool
  loadOk : Bool
  codecOk : Bool

/-- The chained-loading continuation hook (the C function `partial_hook`,
mrbc.c lines 218-238).  It returns the C result (`0` continue, `-1` stop)
together with the updated configuration: at or past the end of the
positional inputs it signals end-of-input without touching the cursor;
otherwise it consumes `argv[idx]` (the `args->argv[args->idx++]` on line
230 advances the cursor before the `fopen`, so a failed open still leaves
the cursor advanced). -/
def chained_hook (env : Env) (args : MrbcArgs) : Int × MrbcArgs :=
  if args.argc ≤ args.idx then (-1, args)
  else
    let fn := args.argv.getD args.idx []
    let args2 := { args with idx := args.idx + 1 }
    if env.canOpenRead fn = false then (-1, args2) else (0, args2)

/-- `load_file` (mrbc.c lines 240-279), restricted to its effect on the
configuration and its success signal.  The first input is `argv[idx]`
(standard input when it is the single character '-'); a failed `fopen`
returns the nil sentinel before the cursor is advanced (line 266 runs after
the open), otherwise the cursor advances exactly once and — when further
inputs remain — the chained hook is installed for the external parser to
drive.  The external compile result is the `loadOk` oracle. -/
def load_file (env : Env) (args : MrbcArgs) : Option Unit × MrbcArgs :=
  let input := args.argv.getD args.idx []
  if input = ['-'] then
    let args2 := { args with idx := args.idx + 1 }
    ((if env.loadOk then some () else none), args2)
  else if env.canOpenRead input = false then (none, args)
  else
    let args2 := { args with idx := args.idx + 1 }
    ((if env.loadOk then some () else none), args2)

/-- Which of the four serialization codecs a `dump_file` call selects, or
the static-without-symbol rejection. -/
inductive DumpSel where
  | cheader : DumpSel
  | cstruct : DumpSel
  | cvar : DumpSel
  | binary : DumpSel
  | staticErr : DumpSel
deriving DecidableEq

/-- mrbc.c line 292 reads `file_ext != NULL && file_ext == C_HEAD_EXT`.
`file_ext` is `strrchr(outfile, '.')` — a pointer into the `outfile`
buffer — while `C_HEAD_EXT` is the address of the static string literal
".h".  They are pointers to distinct live objects, so the equality is false
on every call this program makes; the comparison the surrounding code
intends would be `strcmp(file_ext, C_HEAD_EXT) == 0`. -/
def file_ext_ptr_eq_C_HEAD_EXT : Bool := false

/-- The dispatch policy of `dump_file` (mrbc.c lines 281-318): which codec
is invoked (or the static-storage rejection taken) for a given target
filename and configuration. -/
def dump_file_sel (outfile : List Char) (args : MrbcArgs) : DumpSel :=
  let file_ext := strrchrIdx outfile '.'
  if args.initname.isSome then
    if file_ext ≠ none ∧ file_ext_ptr_eq_C_HEAD_EXT = true then DumpSel.cheader
    else if args.flags &&& MRB_DUMP_STRUCT ≠ 0 then DumpSel.cstruct
    else DumpSel.cvar
  else
    if args.flags &&& MRB_DUMP_STATIC ≠ 0 then DumpSel.staticErr
    else DumpSel.binary

/-- Modelled from the spec: the dispatch policy as the spec states it —
"if the target filename's extension is exactly the C-header extension, emit
the C-header-style artifact" — with the extension (the text from the last
'.' on) compared to `C_HEAD_EXT` as a string. -/
def dump_file_spec_sel (outfile : List Char) (args : MrbcArgs) : DumpSel :=
  if args.initname.isSome then
    match strrchrIdx outfile '.' with
    | some k =>
      if outfile.drop k = C_HEAD_EXT then DumpSel.cheader
      else if args.flags &&& MRB_DUMP_STRUCT ≠ 0 then DumpSel.cstruct
      else DumpSel.cvar
    | none =>
      if args.flags &&& MRB_DUMP_STRUCT ≠ 0 then DumpSel.cstruct
      else DumpSel.cvar
  else
    if args.flags &&& MRB_DUMP_STATIC ≠ 0 then DumpSel.staticErr
    else DumpSel.binary

/-- The status `dump_file` returns (mrbc.c lines 281-318): the
static-without-symbol rejection yields `MRB_DUMP_INVALID_ARGUMENT`; any
selected codec's own status comes from the external codec oracle. -/
def dump_file (env : Env) (outfile : List Char) (args : MrbcArgs) : Int :=
  match dump_file_sel outfile args with
  | DumpSel.staticErr => MRB_DUMP_INVALID_ARGUMENT
  | _ => if env.codecOk then MRB_DUMP_OK else MRB_DUMP_GENERAL_FAILURE

/-- Process outcome of `main`.  `ub` marks the executions in which the C
program reads the local variable `outfilename` while it is uninitialized
(declared line 328, assigned only inside the `args.outfile == NULL &&
!args.check_syntax` branch, lines 346-349, yet used on lines 373, 382 and
only when `args.outfile` is non-NULL): from that read on the behaviour is
undefined and no further event is modelled. -/
inductive MainOutcome where
  | exitSuccess : MainOutcome
  | exitFailure : MainOutcome
  | ub : MainOutcome
deriving DecidableEq

/-- Observable file events of a run: `fopenW p` is a successful
`fopen(p, "wb")` — the point at which the file at `p` is created or
truncated — and `dump s` is an executed `dump_file` call together with the
codec it selected. -/
inductive Ev where
  | fopenW : List Char → Ev
  | dump : DumpSel → Ev
deriving DecidableEq

/-- The C-header dump block of `main` (mrbc.c lines 390-412), entered after
a successful primary dump when `MRB_DUMP_HEADER` is set.  It re-derives the
output name from `args.outfile` with `C_HEAD_EXT` (line 392).  For a
non-"-" output path the source's `if / else if / else` chain returns
`EXIT_FAILURE` on both sides: when the `fopen` fails it reports the open
failure, and when the `fopen` *succeeds* the trailing `else` (lines
401-404) prints "Output file is required" and returns `EXIT_FAILURE`
without ever calling `dump_file`.  Only the "-" (stdout) path reaches the
dump on line 405. -/
def header_pass (env : Env) (outfile : List Char) (args : MrbcArgs) : MainOutcome × List Ev :=
  let outfilename := get_outfilename outfile C_HEAD_EXT
  if outfile = ['-'] then
    let r := dump_file env outfilename args
    ((if r ≠ MRB_DUMP_OK then MainOutcome.exitFailure else MainOutcome.exitSuccess),
      [Ev.dump (dump_file_sel outfilename args)])
  else if env.canOpenWrite outfilename = false then
    (MainOutcome.exitFailure, [])
  else
    (MainOutcome.exitFailure, [Ev.fopenW outfilename])

/-- `main` (mrbc.c lines 320-415), named `mrbc_main` because Lean reserves the name `main` for executables.  The undefined-behaviour outcomes arise
because the derived output name is stored in the local `outfilename` (line
346-349) while the dump stage tests and branches on `args.outfile` (lines
369-381): whenever `args.outfile` was supplied, `outfilename` was never
initialized, and its first read (the `fopen` on line 373, or the
`dump_file` argument on line 382 in the stdout case) is undefined
behaviour.  The line `args.line_size = 16` (line 335) has no effect on the
parse result because `parse_args` starts by overwriting the whole struct
with `args_zero`. -/
def mrbc_main (argv : List (List Char)) (env : Env) : MainOutcome × List Ev :=
  match parse_args argv with
  | ParseResult.perr => (MainOutcome.exitFailure, [])
  | ParseResult.pexit => (MainOutcome.exitSuccess, [])
  | ParseResult.pok args0 n =>
    let argc := argv.length
    if n = argc then (MainOutcome.exitFailure, [])
    else if args0.outfile = none ∧ args0.check_only = false ∧ n + 1 ≠ argc then
      (MainOutcome.exitFailure, [])
    else
      let outfilename? : Option (List Char) :=
        if args0.outfile = none ∧ args0.check_only = false then
          some (get_outfilename (argv.getD n [])
            (if args0.initname.isSome then C_EXT else RITEBIN_EXT))
        else none
      let args := { args0 with idx := n }
      if env.loadOk = false then (MainOutcome.exitFailure, [])
      else if args.check_only = true then (MainOutcome.exitSuccess, [])
      else
        match args.outfile with
        | none => (MainOutcome.exitFailure, [])
        | some out =>
          if out = ['-'] then (MainOutcome.ub, [])
          else
            match outfilename? with
            | none => (MainOutcome.ub, [])
            | some ofn =>
              if env.canOpenWrite ofn = false then (MainOutcome.exitFailure, [])
              else
                let sel := dump_file_sel ofn args
                let r := dump_file env ofn args
                if r ≠ MRB_DUMP_OK then
                  (MainOutcome.exitFailure, [Ev.fopenW ofn, Ev.dump sel])
                else if args.flags &&& MRB_DUMP_HEADER ≠ 0 then
                  let hp := header_pass env out args
                  (hp.1, Ev.fopenW ofn :: Ev.dump sel :: hp.2)
                else (MainOutcome.exitSuccess, [Ev.fopenW ofn, Ev.dump sel])

/-- An environment in which every open succeeds, the compile succeeds and
every codec succeeds. -/
def envAll : Env :=
  { canOpenRead := fun _ => true, canOpenWrite := fun _ => true,
    loadOk := true, codecOk := true }

/-- The program name `mrbc` as a C string. -/
def cMrbc : List Char := ['m', 'r', 'b', 'c']

/-- Argument vector of the single-input, no `-o`, no `-c` scenario:
`mrbc prog.rb`. -/
def argvC1 : List (List Char) := [cMrbc, ['p', 'r', 'o', 'g', '.', 'r', 'b']]

/-- Argument vector `mrbc x.rb` (no `--line-size` option). -/
def argvC3 : List (List Char) := [cMrbc, ['x', '.', 'r', 'b']]

/-- The configuration `parse_args argvC3` produces. -/
def argsC3 : MrbcArgs := { args_zero with prog := cMrbc, argv := argvC3, argc := 2 }

/-- A configuration with an embed symbol `foo` and no format flags. -/
def argsFoo : MrbcArgs := { args_zero with initname := some ['f', 'o', 'o'] }

/-- A configuration with an embed symbol `foo` and the header-emission
flag, as produced by `-Bfoo -H`. -/
def argsFooH : MrbcArgs :=
  { args_zero with initname := some ['f', 'o', 'o'], flags := MRB_DUMP_HEADER }

/-- A configuration whose positional cursor sits on the last of two
inputs. -/
def argsCursor : MrbcArgs :=
  { args_zero with argv := [['a'], ['b']], argc := 2, idx := 1 }

/-- A configuration whose positional cursor has consumed both inputs. -/
def argsCursorEnd : MrbcArgs :=
  { args_zero with argv := [['a'], ['b']], argc := 2, idx := 2 }

/-- Argument vector `mrbc -s x.rb` (static flag, no symbol, no `-o`,
no `-c`). -/
def argvC6 : List (List Char) := [cMrbc, ['-', 's'], ['x', '.', 'r', 'b']]

/-- The configuration `parse_args argvC6` produces. -/
def argsC6 : MrbcArgs :=
  { args_zero with prog := cMrbc, argv := argvC6, argc := 3, flags := MRB_DUMP_STATIC }

/-- Argument vector `mrbc a.rb b.rb` (two positional inputs, no `-o`). -/
def argvC7 : List (List Char) :=
  [cMrbc, ['a', '.', 'r', 'b'], ['b', '.', 'r', 'b']]

/-- The configuration `parse_args argvC7` produces. -/
def argsC7 : MrbcArgs := { args_zero with prog := cMrbc, argv := argvC7, argc := 3 }

/-- Argument vector `mrbc -vg x.rb` (bundled-looking short flags). -/
def argvC10 : List (List Char) := [cMrbc, ['-', 'v', 'g'], ['x', '.', 'r', 'b']]

/-- The configuration `parse_args argvC10` produces: verbose is set, the
debug-info flag is not. -/
def argsC10 : MrbcArgs :=
  { args_zero with prog := cMrbc, argv := argvC10, argc := 3, verbose := true }

/-! ## Helper lemmas -/

theorem cix_headD_drop (l : List Char) (n : Nat) : cix l n = (l.drop n).headD '\x00' := by
  induction l generalizing n with
  | nil => cases n <;> rfl
  | cons a t ih =>
    cases n with
    | zero => rfl
    | succ m =>
      rw [List.drop_succ_cons]
      rw [← ih m]
      rfl

theorem strrchrIdx_eq_none (l : List Char) (c : Char) :
    strrchrIdx l c = none ↔ c ∉ l := by
  induction l with
  | nil => simp [strrchrIdx]
  | cons a t ih =>
    simp only [strrchrIdx]
    cases h : strrchrIdx t c with
    | some k =>
      have hmem : c ∈ t := by
        by_contra hc
        rw [ih.mpr hc] at h
        exact Option.noConfusion h
      simp [List.mem_cons, hmem]
    | none =>
      have hnt : c ∉ t := ih.mp h
      by_cases hac : a = c
      · simp [hac]
      · have hca : ¬ c = a := fun h2 => hac h2.symm
        simp [hac, hnt, List.mem_cons, hca]

theorem getD_mem_of_lt (l : List Char) (j : Nat) (d : Char) (h : j < l.length) :
    l.getD j d ∈ l := by
  induction l generalizing j with
  | nil => simp at h
  | cons a t ih =>
    cases j with
    | zero => simp [List.getD]
    | succ m =>
      simp only [List.getD_cons_succ]
      exact List.mem_cons_of_mem _ (ih m (by simpa using h))

theorem strrchrIdx_spec (l : List Char) (c : Char) (k : Nat)
    (h : strrchrIdx l c = some k) :
    k < l.length ∧ l.getD k '\x00' = c ∧
      ∀ j, k < j → j < l.length → l.getD j '\x00' ≠ c := by
  induction l generalizing k with
  | nil => simp [strrchrIdx] at h
  | cons a t ih =>
    simp only [strrchrIdx] at h
    cases h2 : strrchrIdx t c with
    | some k0 =>
      rw [h2] at h
      have hk : k = k0 + 1 := by
        cases h
        rfl
      obtain ⟨h1, hg, hl⟩ := ih k0 h2
      subst hk
      refine ⟨by simpa using Nat.succ_lt_succ h1, by simpa using hg, ?_⟩
      intro j hj hjl
      cases j with
      | zero => omega
      | succ m =>
        simp only [List.getD_cons_succ]
        exact hl m (by omega) (by simpa using hjl)
    | none =>
      rw [h2] at h
      by_cases hac : a = c
      · rw [if_pos hac] at h
        have hk : k = 0 := by
          cases h
          rfl
        subst hk
        have hnt : c ∉ t := (strrchrIdx_eq_none t c).mp h2
        refine ⟨by simp, by simpa [List.getD] using hac, ?_⟩
        intro j hj hjl
        cases j with
        | zero => omega
        | succ m =>
          simp only [List.getD_cons_succ]
          intro he
          exact hnt (by rw [← he]; exact getD_mem_of_lt t m '\x00' (by simpa using hjl))
      · rw [if_neg hac] at h
        exact Option.noConfusion h

theorem cix2_ne_of_drop2 (hd : List Char) (h : hd.drop 2 = cLineSize)
    (h2 : cix hd 2 = '\x00') : False := by
  rw [cix_headD_drop, h] at h2
  exact absurd h2 (by decide)

theorem read_int_drop2_ne (hd : List Char) (h : hd.drop 2 = cLineSize) (v : Int)
    (h2 : mrb_read_int (hd.drop 2) = some v) : False := by
  rw [h] at h2
  have hnone : mrb_read_int cLineSize = none := rfl
  rw [hnone] at h2
  exact Option.noConfusion h2

/-- Every configuration `parseLoop` hands back through `pok` keeps
`line_size` at zero when it started at zero: the only assignment to
`line_size` sits in the `--line-size` branch, whose two value sources are
an always-false index test (`argv[i][2] == '\0'` against an argument known
to be exactly `--line-size`) and `mrb_read_int` applied to the literal text
`line-size`, which does not parse. -/
theorem parseLoop_line_size :
    ∀ (fuel : Nat) (rest : List (List Char)) (args : MrbcArgs) (i : Nat)
      (a : MrbcArgs) (n : Nat), rest.length ≤ fuel →
      parseLoop args i rest = ParseResult.pok a n → args.line_size = 0 →
      a.line_size = 0 := by
  intro fuel
  induction fuel with
  | zero =>
    intro rest args i a n hlen h hz
    have hnil : rest = [] := List.length_eq_zero.mp (Nat.le_zero.mp hlen)
    subst hnil
    simp only [parseLoop] at h
    cases h
    exact hz
  | succ fuel ih =>
    intro rest args i a n hlen h hz
    cases rest with
    | nil =>
      simp only [parseLoop] at h
      cases h
      exact hz
    | cons hd tl =>
      cases tl with
      | nil =>
        have hl0 : ([] : List (List Char)).length ≤ fuel := Nat.zero_le fuel
        rw [parseLoop.eq_3] at h
        by_cases hc0 : cix hd 0 = '-'
        case neg => rw [if_neg hc0] at h; cases h; exact hz
        rw [if_pos hc0] at h
        by_cases hc1 : cix hd 1 = 'o'
        case pos =>
          rw [if_pos hc1] at h
          by_cases ho : args.outfile.isSome = true
          · rw [if_pos ho] at h; exact ParseResult.noConfusion h
          · rw [if_neg ho] at h; exact ih _ _ _ _ _ hl0 h hz
        rw [if_neg hc1] at h
        by_cases hc2 : cix hd 1 = 'S'
        case pos => rw [if_pos hc2] at h; exact ih _ _ _ _ _ hl0 h hz
        rw [if_neg hc2] at h
        by_cases hc3 : cix hd 1 = 'B'
        case pos =>
          rw [if_pos hc3] at h
          by_cases hb : cix (List.drop 2 hd) 0 = '\x00'
          · rw [if_pos hb] at h; exact ParseResult.noConfusion h
          · rw [if_neg hb] at h; exact ih _ _ _ _ _ hl0 h hz
        rw [if_neg hc3] at h
        by_cases hc4 : cix hd 1 = 'H'
        case pos => rw [if_pos hc4] at h; exact ih _ _ _ _ _ hl0 h hz
        rw [if_neg hc4] at h
        by_cases hc5 : cix hd 1 = '8'
        case pos => rw [if_pos hc5] at h; exact ih _ _ _ _ _ hl0 h hz
        rw [if_neg hc5] at h
        by_cases hc6 : cix hd 1 = 'c'
        case pos => rw [if_pos hc6] at h; exact ih _ _ _ _ _ hl0 h hz
        rw [if_neg hc6] at h
        by_cases hc7 : cix hd 1 = 'v'
        case pos => rw [if_pos hc7] at h; exact ih _ _ _ _ _ hl0 h hz
        rw [if_neg hc7] at h
        by_cases hc8 : cix hd 1 = 'g'
        case pos => rw [if_pos hc8] at h; exact ih _ _ _ _ _ hl0 h hz
        rw [if_neg hc8] at h
        by_cases hc9 : cix hd 1 = 's'
        case pos => rw [if_pos hc9] at h; exact ih _ _ _ _ _ hl0 h hz
        rw [if_neg hc9] at h
        by_cases hc10 : cix hd 1 = 'E' ∨ cix hd 1 = 'e'
        case pos => rw [if_pos hc10] at h; exact ih _ _ _ _ _ hl0 h hz
        rw [if_neg hc10] at h
        by_cases hc11 : cix hd 1 = 'h'
        case pos => rw [if_pos hc11] at h; exact ParseResult.noConfusion h
        rw [if_neg hc11] at h
        by_cases hc12 : cix hd 1 = '-'
        case neg => rw [if_neg hc12] at h; cases h; exact hz
        rw [if_pos hc12] at h
        by_cases hc13 : cix hd 1 = '\n'
        case pos => rw [if_pos hc13] at h; cases h; exact hz
        rw [if_neg hc13] at h
        by_cases hc14 : List.drop 2 hd = cVersion
        case pos => rw [if_pos hc14] at h; exact ParseResult.noConfusion h
        rw [if_neg hc14] at h
        by_cases hc15 : List.drop 2 hd = cVerbose
        case pos => rw [if_pos hc15] at h; exact ih _ _ _ _ _ hl0 h hz
        rw [if_neg hc15] at h
        by_cases hc16 : List.drop 2 hd = cCopyright
        case pos => rw [if_pos hc16] at h; exact ParseResult.noConfusion h
        rw [if_neg hc16] at h
        by_cases hc17 : List.drop 2 hd = cRemoveLv
        case pos => rw [if_pos hc17] at h; exact ih _ _ _ _ _ hl0 h hz
        rw [if_neg hc17] at h
        by_cases hc18 : List.drop 2 hd = cNoExtOps
        case pos => rw [if_pos hc18] at h; exact ih _ _ _ _ _ hl0 h hz
        rw [if_neg hc18] at h
        by_cases hc19 : List.drop 2 hd = cNoOptimize
        case pos => rw [if_pos hc19] at h; exact ih _ _ _ _ _ hl0 h hz
        rw [if_neg hc19] at h
        by_cases hc20 : List.drop 2 hd = cLineSize
        case neg => rw [if_neg hc20] at h; exact ParseResult.noConfusion h
        rw [if_pos hc20] at h
        cases hr : mrb_read_int (List.drop 2 hd) with
        | none => rw [hr] at h; exact ParseResult.noConfusion h
        | some v => exact (read_int_drop2_ne hd hc20 v hr).elim
      | cons b tl2 =>
        have hl2 : tl2.length ≤ fuel := by
          simp only [List.length_cons] at hlen; omega
        have hbl : (b :: tl2).length ≤ fuel := by
          simp only [List.length_cons] at hlen ⊢; omega
        rw [parseLoop.eq_2] at h
        by_cases hc0 : cix hd 0 = '-'
        case neg => rw [if_neg hc0] at h; cases h; exact hz
        rw [if_pos hc0] at h
        by_cases hc1 : cix hd 1 = 'o'
        case pos =>
          rw [if_pos hc1] at h
          by_cases ho : args.outfile.isSome = true
          · rw [if_pos ho] at h; exact ParseResult.noConfusion h
          · rw [if_neg ho] at h
            by_cases hn : cix hd 2 = '\x00'
            · rw [if_pos hn] at h; exact ih _ _ _ _ _ hl2 h hz
            · rw [if_neg hn] at h; exact ih _ _ _ _ _ hbl h hz
        rw [if_neg hc1] at h
        by_cases hc2 : cix hd 1 = 'S'
        case pos => rw [if_pos hc2] at h; exact ih _ _ _ _ _ hbl h hz
        rw [if_neg hc2] at h
        by_cases hc3 : cix hd 1 = 'B'
        case pos =>
          rw [if_pos hc3] at h
          by_cases hn : cix hd 2 = '\x00'
          · rw [if_pos hn] at h
            by_cases hb0 : cix b 0 = '\x00'
            · rw [if_pos hb0] at h; exact ParseResult.noConfusion h
            · rw [if_neg hb0] at h; exact ih _ _ _ _ _ hl2 h hz
          · rw [if_neg hn] at h
            by_cases hb0 : cix (List.drop 2 hd) 0 = '\x00'
            · rw [if_pos hb0] at h; exact ParseResult.noConfusion h
            · rw [if_neg hb0] at h; exact ih _ _ _ _ _ hbl h hz
        rw [if_neg hc3] at h
        by_cases hc4 : cix hd 1 = 'H'
        case pos => rw [if_pos hc4] at h; exact ih _ _ _ _ _ hbl h hz
        rw [if_neg hc4] at h
        by_cases hc5 : cix hd 1 = '8'
        case pos => rw [if_pos hc5] at h; exact ih _ _ _ _ _ hbl h hz
        rw [if_neg hc5] at h
        by_cases hc6 : cix hd 1 = 'c'
        case pos => rw [if_pos hc6] at h; exact ih _ _ _ _ _ hbl h hz
        rw [if_neg hc6] at h
        by_cases hc7 : cix hd 1 = 'v'
        case pos => rw [if_pos hc7] at h; exact ih _ _ _ _ _ hbl h hz
        rw [if_neg hc7] at h
        by_cases hc8 : cix hd 1 = 'g'
        case pos => rw [if_pos hc8] at h; exact ih _ _ _ _ _ hbl h hz
        rw [if_neg hc8] at h
        by_cases hc9 : cix hd 1 = 's'
        case pos => rw [if_pos hc9] at h; exact ih _ _ _ _ _ hbl h hz
        rw [if_neg hc9] at h
        by_cases hc10 : cix hd 1 = 'E' ∨ cix hd 1 = 'e'
        case pos => rw [if_pos hc10] at h; exact ih _ _ _ _ _ hbl h hz
        rw [if_neg hc10] at h
        by_cases hc11 : cix hd 1 = 'h'
        case pos => rw [if_pos hc11] at h; exact ParseResult.noConfusion h
        rw [if_neg hc11] at h
        by_cases hc12 : cix hd 1 = '-'
        case neg => rw [if_neg hc12] at h; cases h; exact hz
        rw [if_pos hc12] at h
        by_cases hc13 : cix hd 1 = '\n'
        case pos => rw [if_pos hc13] at h; cases h; exact hz
        rw [if_neg hc13] at h
        by_cases hc14 : List.drop 2 hd = cVersion
        case pos => rw [if_pos hc14] at h; exact ParseResult.noConfusion h
        rw [if_neg hc14] at h
        by_cases hc15 : List.drop 2 hd = cVerbose
        case pos => rw [if_pos hc15] at h; exact ih _ _ _ _ _ hbl h hz
        rw [if_neg hc15] at h
        by_cases hc16 : List.drop 2 hd = cCopyright
        case pos => rw [if_pos hc16] at h; exact ParseResult.noConfusion h
        rw [if_neg hc16] at h
        by_cases hc17 : List.drop 2 hd = cRemoveLv
        case pos => rw [if_pos hc17] at h; exact ih _ _ _ _ _ hbl h hz
        rw [if_neg hc17] at h
        by_cases hc18 : List.drop 2 hd = cNoExtOps
        case pos => rw [if_pos hc18] at h; exact ih _ _ _ _ _ hbl h hz
        rw [if_neg hc18] at h
        by_cases hc19 : List.drop 2 hd = cNoOptimize
        case pos => rw [if_pos hc19] at h; exact ih _ _ _ _ _ hbl h hz
        rw [if_neg hc19] at h
        by_cases hc20 : List.drop 2 hd = cLineSize
        case neg => rw [if_neg hc20] at h; exact ParseResult.noConfusion h
        rw [if_pos hc20] at h
        by_cases hn : cix hd 2 = '\x00'
        case pos => exact (cix2_ne_of_drop2 hd hc20 hn).elim
        rw [if_neg hn] at h
        cases hr : mrb_read_int (List.drop 2 hd) with
        | none => rw [hr] at h; exact ParseResult.noConfusion h
        | some v => exact (read_int_drop2_ne hd hc20 v hr).elim

/-! ## Claim theorems -/

/-- C1: the claim says that for one positional input, no `-o` and no `-c`,
the driver derives the output name (stem plus `.mrb`, or plus `.c` under
`-B`), opens that file for writing, dumps to it and exits successfully.
The code derives exactly those names (second and third conjuncts), but the
dump stage then tests `args.outfile` — still NULL — instead of the derived
`outfilename`, prints "Output file is required" and exits with failure
without opening anything: on `mrbc prog.rb` with a compiling program the
run ends in `EXIT_FAILURE` with an empty file-event trace (first
conjunct). -/
theorem mrbc_C1 :
    mrbc_main argvC1 envAll = (MainOutcome.exitFailure, []) ∧
    get_outfilename ['p', 'r', 'o', 'g', '.', 'r', 'b'] RITEBIN_EXT =
      ['p', 'r', 'o', 'g', '.', 'm', 'r', 'b'] ∧
    get_outfilename ['p', 'r', 'o', 'g', '.', 'r', 'b'] C_EXT =
      ['p', 'r', 'o', 'g', '.', 'c'] :=
  ⟨rfl, rfl, rfl⟩

/-- C2: the claim says the header pass writes the paired `.h` declaration
artifact.  In the code, once the re-derived `.h` file has been *opened
successfully*, the trailing `else` of the open chain prints "Output file is
required" and returns `EXIT_FAILURE` without calling `dump_file`: for every
non-stdout output path whose `.h` sibling opens fine, the header pass ends
in failure having only created/truncated the `.h` file, and no dump event
occurs. -/
theorem mrbc_C2 (env : Env) (outfile : List Char) (args : MrbcArgs)
    (hnd : outfile ≠ ['-'])
    (hw : env.canOpenWrite (get_outfilename outfile C_HEAD_EXT) = true) :
    header_pass env outfile args =
      (MainOutcome.exitFailure, [Ev.fopenW (get_outfilename outfile C_HEAD_EXT)]) := by
  unfold header_pass
  rw [if_neg hnd]
  rw [hw]
  simp

/-- Witness for C2 at a concrete input: output path `out.c`, fully
permissive environment; the pass opens `out.h` and still fails without
dumping. -/
theorem mrbc_C2_witness :
    header_pass envAll ['o', 'u', 't', '.', 'c'] argsFooH =
      (MainOutcome.exitFailure, [Ev.fopenW ['o', 'u', 't', '.', 'h']]) :=
  mrbc_C2 envAll ['o', 'u', 't', '.', 'c'] argsFooH (by decide) rfl

/-- C3: the claim says the line width defaults to 16 when `--line-size` is
absent.  In the code `main` pre-sets `args.line_size = 16`, but
`parse_args` immediately overwrites the whole struct with `args_zero`, and
its only assignment to `line_size` is unreachable (see
`parseLoop_line_size`), so *every* configuration that reaches the dump
stage carries line width 0, never 16. -/
theorem mrbc_C3 (argv : List (List Char)) (args : MrbcArgs) (n : Nat)
    (h : parse_args argv = ParseResult.pok args n) :
    args.line_size = 0 ∧ args.line_size ≠ 16 := by
  unfold parse_args at h
  have hz := parseLoop_line_size (argv.drop 1).length (argv.drop 1) _ 1 args n
    le_rfl h rfl
  exact ⟨hz, by rw [hz]; decide⟩

/-- Witness for C3 at the concrete invocation `mrbc x.rb` (no
`--line-size`): the parsed configuration carries line width 0. -/
theorem mrbc_C3_witness : argsC3.line_size = 0 ∧ argsC3.line_size ≠ 16 :=
  mrbc_C3 argvC3 argsC3 1 rfl

/-- C4: the claim says `--line-size=1` and `--line-size=255` are accepted
and 0/256/unparsable rejected.  In the code every `--line-size` spelling is
rejected: the `=`-joined form never passes the exact `strcmp` against
`"line-size"` and falls through to the final `return -1`, while the
two-element form fails the (always false) `argv[i][2] == '\0'` test and
then feeds the literal text `line-size` to `mrb_read_int`.  All six
spellings below — including the two the claim requires to be accepted —
produce the parse-error result. -/
theorem mrbc_C4 :
    parse_args [cMrbc, ['-', '-', 'l', 'i', 'n', 'e', '-', 's', 'i', 'z', 'e', '=', '1'],
      ['x', '.', 'r', 'b']] = ParseResult.perr ∧
    parse_args [cMrbc, ['-', '-', 'l', 'i', 'n', 'e', '-', 's', 'i', 'z', 'e', '=', '2', '5', '5'],
      ['x', '.', 'r', 'b']] = ParseResult.perr ∧
    parse_args [cMrbc, ['-', '-', 'l', 'i', 'n', 'e', '-', 's', 'i', 'z', 'e'], ['1'],
      ['x', '.', 'r', 'b']] = ParseResult.perr ∧
    parse_args [cMrbc, ['-', '-', 'l', 'i', 'n', 'e', '-', 's', 'i', 'z', 'e'], ['2', '5', '5'],
      ['x', '.', 'r', 'b']] = ParseResult.perr ∧
    parse_args [cMrbc, ['-', '-', 'l', 'i', 'n', 'e', '-', 's', 'i', 'z', 'e', '=', '0'],
      ['x', '.', 'r', 'b']] = ParseResult.perr ∧
    parse_args [cMrbc, ['-', '-', 'l', 'i', 'n', 'e', '-', 's', 'i', 'z', 'e', '=', '2', '5', '6'],
      ['x', '.', 'r', 'b']] = ParseResult.perr :=
  ⟨rfl, rfl, rfl, rfl, rfl, rfl⟩

/-- C5: the claim says a `.h` target with an embed symbol selects the
C-header codec.  The code compares the extension *pointer* with the address
of the `".h"` literal (always false), so the C-header codec is dead: every
call lands in one of the other four outcomes (first conjunct), and on the
concrete `.h` target with symbol `foo` the C-variable codec is selected
(third conjunct) where the spec's own dispatch rule — string comparison of
the extension — selects the C-header codec (second conjunct). -/
theorem mrbc_C5 :
    (∀ (outfile : List Char) (args : MrbcArgs),
      dump_file_sel outfile args ∈
        [DumpSel.cstruct, DumpSel.cvar, DumpSel.binary, DumpSel.staticErr]) ∧
    dump_file_spec_sel ['o', 'u', 't', '.', 'h'] argsFoo = DumpSel.cheader ∧
    dump_file_sel ['o', 'u', 't', '.', 'h'] argsFoo = DumpSel.cvar := by
  refine ⟨?_, rfl, rfl⟩
  intro outfile args
  simp only [dump_file_sel, file_ext_ptr_eq_C_HEAD_EXT]
  split_ifs <;> simp_all

/-- C6 (counterexample): the claim quantifies over *every* invocation
supplying `-s` without `-B`.  The invocation `mrbc -s -c x.rb` supplies
`-s`, supplies no `-B`, and exits with success through the syntax-check
path, so the claim as stated is false. -/
theorem mrbc_C6_counterexample :
    (mrbc_main [cMrbc, ['-', 's'], ['-', 'c'], ['x', '.', 'r', 'b']] envAll).1 =
      MainOutcome.exitSuccess := rfl

/-- C6 (amended): for every invocation supplying `-s` without `-B` whose
option parsing runs to completion (no `--version`/`--copyright` early
exit), with `-c` not supplied and no `-o` supplied, the process exits with
failure and no output file is ever opened for writing (empty file-event
trace); moreover the dispatcher's own `-s`-without-`-B` rejection holds
for the parsed configuration on every target filename.  The `-c` exclusion
is forced by `mrbc_C6_counterexample`; the
`-o` exclusion is forced because with `-o` the dump stage reads the
uninitialized `outfilename` (undefined behaviour) before the `-s` check in
`dump_file` could run. -/
theorem mrbc_C6 (argv : List (List Char)) (env : Env) (args : MrbcArgs) (n : Nat)
    (hp : parse_args argv = ParseResult.pok args n)
    (hs : args.flags &&& MRB_DUMP_STATIC ≠ 0)
    (hB : args.initname = none)
    (hc : args.check_only = false)
    (ho : args.outfile = none) :
    mrbc_main argv env = (MainOutcome.exitFailure, []) ∧
    ∀ outfile : List Char, dump_file_sel outfile args = DumpSel.staticErr := by
  constructor
  · simp only [mrbc_main, hp]
    by_cases h1 : n = argv.length
    · simp [h1]
    · by_cases h2 : n + 1 = argv.length
      · by_cases h3 : env.loadOk
        · simp [h1, h2, h3, ho, hc]
        · simp [h1, h2, h3, ho, hc]
      · simp [h1, h2, ho, hc]
  · intro outfile
    simp [dump_file_sel, hB, hs]

/-- Witness for C6 (amended) at the concrete invocation `mrbc -s x.rb`:
failure, nothing opened, and the dispatcher's `-s`-without-`-B` rejection
holds for the configuration. -/
theorem mrbc_C6_witness :
    mrbc_main argvC6 envAll = (MainOutcome.exitFailure, []) ∧
    dump_file_sel ['x', '.', 'm', 'r', 'b'] argsC6 = DumpSel.staticErr :=
  ⟨(mrbc_C6 argvC6 envAll argsC6 2 rfl (by decide) rfl rfl rfl).1,
   (mrbc_C6 argvC6 envAll argsC6 2 rfl (by decide) rfl rfl rfl).2 ['x', '.', 'm', 'r', 'b']⟩

/-- C7 (counterexample): the claim quantifies over every invocation with
two or more positional inputs and no `-o`.  The invocation
`mrbc -c a.rb b.rb` has two positional inputs and no `-o`, yet exits with
success through the syntax-check path, so the claim as stated is false. -/
theorem mrbc_C7_counterexample :
    (mrbc_main [cMrbc, ['-', 'c'], ['a', '.', 'r', 'b'], ['b', '.', 'r', 'b']] envAll).1 =
      MainOutcome.exitSuccess := rfl

/-- C7 (amended): for every invocation whose option parsing runs to
completion with two or more positional inputs, no `-o` and no `-c`, the
process exits with failure ("output file should be specified to compile
multiple files") and no output file is ever opened for writing (empty
file-event trace).  The `-c` exclusion is forced by
`mrbc_C7_counterexample`. -/
theorem mrbc_C7 (argv : List (List Char)) (env : Env) (args : MrbcArgs) (n : Nat)
    (hp : parse_args argv = ParseResult.pok args n)
    (hm : n + 2 ≤ argv.length)
    (ho : args.outfile = none)
    (hc : args.check_only = false) :
    mrbc_main argv env = (MainOutcome.exitFailure, []) := by
  simp only [mrbc_main, hp]
  have h1 : ¬ (n = argv.length) := by omega
  have h2 : n + 1 ≠ argv.length := by omega
  simp [h1, h2, ho, hc]

/-- Witness for C7 (amended) at the concrete invocation `mrbc a.rb b.rb`:
failure, nothing opened. -/
theorem mrbc_C7_witness :
    mrbc_main argvC7 envAll = (MainOutcome.exitFailure, []) :=
  mrbc_C7 argvC7 envAll argsC7 1 rfl (by decide) rfl rfl

/-- C8: the Filename Deriver contract.  For any input name and requested
extension: if the input has no '.' or the extension is empty, the input
comes back unchanged; if the input has a '.' and the extension is
nonempty, the result is the text before the input's *last* '.' (the unique
index `k` holding '.' with no '.' after it) concatenated with the
extension. -/
theorem mrbc_C8 (infile ext : List Char) :
    (('.' ∉ infile ∨ ext = []) → get_outfilename infile ext = infile) ∧
    ('.' ∈ infile → ext ≠ [] →
      ∃ k, k < infile.length ∧ infile.getD k '\x00' = '.' ∧
        (∀ j, k < j → j < infile.length → infile.getD j '\x00' ≠ '.') ∧
        get_outfilename infile ext = infile.take k ++ ext) := by
  constructor
  · intro hcase
    unfold get_outfilename
    rcases hcase with hnd | hext
    · have hnone : strrchrIdx infile '.' = none := (strrchrIdx_eq_none _ _).mpr hnd
      rw [hnone]
      split <;> rfl
    · rw [if_pos hext]
  · intro hmem hext
    cases hidx : strrchrIdx infile '.' with
    | none => exact absurd hmem ((strrchrIdx_eq_none _ _).mp hidx)
    | some k =>
      obtain ⟨hk, hget, hlast⟩ := strrchrIdx_spec infile '.' k hidx
      refine ⟨k, hk, hget, hlast, ?_⟩
      unfold get_outfilename
      rw [if_neg hext, hidx]

/-- Witness for C8 at concrete inputs: a dotless name is returned
unchanged, and `a.rb` with extension `.mrb` rewrites to the stem `a`
followed by the extension. -/
theorem mrbc_C8_witness :
    get_outfilename ['n', 'o', 'e', 'x', 't'] ['.', 'm', 'r', 'b'] =
      ['n', 'o', 'e', 'x', 't'] ∧
    ∃ k, k < (['a', '.', 'r', 'b'] : List Char).length ∧
      (['a', '.', 'r', 'b'] : List Char).getD k '\x00' = '.' ∧
      (∀ j, k < j → j < (['a', '.', 'r', 'b'] : List Char).length →
        (['a', '.', 'r', 'b'] : List Char).getD j '\x00' ≠ '.') ∧
      get_outfilename ['a', '.', 'r', 'b'] ['.', 'm', 'r', 'b'] =
        (['a', '.', 'r', 'b'] : List Char).take k ++ ['.', 'm', 'r', 'b'] :=
  ⟨(mrbc_C8 ['n', 'o', 'e', 'x', 't'] ['.', 'm', 'r', 'b']).1 (Or.inl (by decide)),
   (mrbc_C8 ['a', '.', 'r', 'b'] ['.', 'm', 'r', 'b']).2 (by decide) (by decide)⟩

/-- C9: the positional cursor never exceeds the input count.  At or past
the end of the inputs the hook signals end-of-input (`-1`) without moving
the cursor; strictly below the count it advances the cursor by exactly one,
staying within the count; and `load_file` either advances the cursor by
exactly one (after consuming the first input) or — when the input cannot
be opened — leaves the configuration untouched, in both cases staying
within the count. -/
theorem mrbc_C9 (env : Env) (args : MrbcArgs) :
    (args.argc ≤ args.idx → chained_hook env args = (-1, args)) ∧
    (args.idx < args.argc →
      (chained_hook env args).2.idx = args.idx + 1 ∧
      (chained_hook env args).2.idx ≤ args.argc) ∧
    (args.idx < args.argc →
      ((load_file env args).2.idx = args.idx + 1 ∨ (load_file env args).2 = args) ∧
      (load_file env args).2.idx ≤ args.argc) := by
  refine ⟨?_, ?_, ?_⟩
  · intro h
    simp [chained_hook, h]
  · intro h
    have hno : ¬ args.argc ≤ args.idx := by omega
    unfold chained_hook
    rw [if_neg hno]
    dsimp only
    constructor
    · split <;> rfl
    · split <;> · show args.idx + 1 ≤ args.argc
                  omega
  · intro h
    unfold load_file
    dsimp only
    split_ifs
    all_goals first
      | exact ⟨Or.inl rfl, by show args.idx + 1 ≤ args.argc; omega⟩
      | exact ⟨Or.inr rfl, by show args.idx ≤ args.argc; omega⟩

/-- Witness for C9 at concrete cursors: with the cursor at the end the hook
reports end-of-input unchanged; strictly below the count both the hook and
the loader advance by one while staying within the count. -/
theorem mrbc_C9_witness :
    chained_hook envAll argsCursorEnd = (-1, argsCursorEnd) ∧
    (chained_hook envAll argsCursor).2.idx = 2 ∧
    (chained_hook envAll argsCursor).2.idx ≤ 2 ∧
    ((load_file envAll argsCursor).2.idx = 2 ∨ (load_file envAll argsCursor).2 = argsCursor) :=
  ⟨(mrbc_C9 envAll argsCursorEnd).1 (by decide),
   ((mrbc_C9 envAll argsCursor).2.1 (by decide)).1,
   ((mrbc_C9 envAll argsCursor).2.1 (by decide)).2,
   ((mrbc_C9 envAll argsCursor).2.2 (by decide)).1⟩

/-- C10: short options are matched only on the character right after '-';
for value-free flags any trailing characters in the same element are
ignored, so one element cannot bundle several flags.  First two conjuncts:
an element starting `-v` (resp. `-g`) acts exactly like plain `-v` (resp.
`-g`) whatever follows.  Third conjunct: parsing `mrbc -vg x.rb` enables
verbose only — the debug-info flag stays clear (`argsC10.flags = 0`). -/
theorem mrbc_C10 :
    (∀ (r : List Char) (tail : List (List Char)) (args : MrbcArgs) (i : Nat),
      parseLoop args i (('-' :: 'v' :: r) :: tail) =
        parseLoop { args with verbose := true } (i + 1) tail) ∧
    (∀ (r : List Char) (tail : List (List Char)) (args : MrbcArgs) (i : Nat),
      parseLoop args i (('-' :: 'g' :: r) :: tail) =
        parseLoop { args with flags := args.flags ||| MRB_DUMP_DEBUG_INFO } (i + 1) tail) ∧
    parse_args argvC10 = ParseResult.pok argsC10 2 := by
  refine ⟨?_, ?_, rfl⟩ <;> intro r tail args i <;> cases tail <;> rfl
